import Mathlib

/-!
A shallow embedding of the simulation core of Pipeline Defender
(`js/game.js`, class `PipelineDefenderGame`), together with proofs about
its collision resolution, power-up collection, boundary handling, timer,
and session state machine.

JavaScript numbers are modelled by `ℚ` (all arithmetic the core performs
on positions is addition, subtraction, comparison, halving and clamping,
which are exact); entity collections are Lean lists in the same order as
the JS arrays; `array.splice(i, 1)` is `List.eraseIdx i`; the reverse
`for` loops of the source are structural recursions that process the
tail (the higher indices) first.  Calls into `window.display` /
`window.screens` are fire-and-forget notifications; we record the ones
the specification talks about in an explicit event trace.  Pure logging
(`console.*`) and the vibration call are omitted.
-/

/-- The four bug types (`this.bugTypes` in the constructor). -/
inductive BugType
  | functionalErrors
  | securityBugs
  | qualityBugs
  | embeddedSecrets
deriving DecidableEq, Repr

/-- The four power-up types (`this.powerUpTypes` in the constructor). -/
inductive PowerUpType
  | TEST
  | CSM
  | SEC
  | QUAL
deriving DecidableEq, Repr

/-- `this.bugToPowerUpMap`: which power-up eliminates each bug type. -/
def bugToPowerUpMap : BugType → PowerUpType
  | .functionalErrors => .TEST
  | .securityBugs => .SEC
  | .qualityBugs => .QUAL
  | .embeddedSecrets => .CSM

/-- `Object.keys(this.bugToPowerUpMap)` in insertion order. -/
def bugTypeKeys : List BugType :=
  [.functionalErrors, .securityBugs, .qualityBugs, .embeddedSecrets]

/-- The string label of a power-up type (used for display effects). -/
def PowerUpType.label : PowerUpType → String
  | .TEST => "TEST"
  | .CSM => "CSM"
  | .SEC => "SEC"
  | .QUAL => "QUAL"

/-- Common fields of the moving objects (`id`, position, extent, `size`). -/
structure Entity where
  id : Nat
  x : ℚ
  y : ℚ
  width : ℚ
  height : ℚ
  size : ℚ
deriving DecidableEq, Repr

/-- A projectile object as created by `shoot()` (the `hasCollided` flag is
set there and never read by the logic). -/
structure Projectile extends Entity where
  hasCollided : Bool
deriving DecidableEq, Repr

/-- A bug object as created by `spawnBug()`. -/
structure Bug extends Entity where
  type : BugType
deriving DecidableEq, Repr

/-- A power-up object as created by `spawnPowerUp()`. -/
structure PowerUp extends Entity where
  type : PowerUpType
deriving DecidableEq, Repr

/-- The player object (`resetPlayer`). -/
structure Player where
  x : ℚ
  y : ℚ
  width : ℚ
  height : ℚ
  velocity : ℚ
deriving DecidableEq, Repr

/-- `this.bugStats`: per-bug-type kill counters (a four-key object). -/
structure BugStats where
  functionalErrors : Nat
  securityBugs : Nat
  qualityBugs : Nat
  embeddedSecrets : Nat
deriving DecidableEq, Repr

/-- Read the counter for one bug type. -/
def BugStats.get (st : BugStats) : BugType → Nat
  | .functionalErrors => st.functionalErrors
  | .securityBugs => st.securityBugs
  | .qualityBugs => st.qualityBugs
  | .embeddedSecrets => st.embeddedSecrets

/-- `this.bugStats[bug.type]++`. -/
def BugStats.incr (st : BugStats) : BugType → BugStats
  | .functionalErrors => { st with functionalErrors := st.functionalErrors + 1 }
  | .securityBugs => { st with securityBugs := st.securityBugs + 1 }
  | .qualityBugs => { st with qualityBugs := st.qualityBugs + 1 }
  | .embeddedSecrets => { st with embeddedSecrets := st.embeddedSecrets + 1 }

/-- `Object.values(this.bugStats).reduce((a, b) => a + b, 0)`. -/
def BugStats.total (st : BugStats) : Nat :=
  st.functionalErrors + st.securityBugs + st.qualityBugs + st.embeddedSecrets

/-- The result summary built by `endGame`. -/
structure GameResult where
  success : Bool
  score : ℤ
  timeTaken : ℤ
  bugsKilled : Nat
  powerupsCollected : Nat
  bugStats : BugStats
  message : String
deriving DecidableEq, Repr

/-- `this.gameState` (the comment in the constructor lists the phases
`menu, playing, paused, gameover`). -/
inductive Phase
  | menu
  | playing
  | paused
  | gameover
deriving DecidableEq, Repr

/-- Outbound fire-and-forget notifications to the display / screens
collaborators, in call order. -/
inductive Ev
  | createdProjectile (id : Nat)
  | removedProjectile (id : Nat)
  | removedBug (id : Nat)
  | removedPowerUp (id : Nat)
  | explosion (x y : ℚ)
  | scorePopup (x y : ℚ) (amount : ℤ) (isBig : Bool)
  | powerUpEffect (x y : ℚ) (label : String)
  | scoreChanged (newScore : ℤ)
  | timerChanged (secondsRemaining : ℤ)
  | pipelineStatus (collected : List PowerUpType)
  | sessionEnded (result : GameResult)
  | flashWarning
  | shakeScreen (intensity duration : Nat)
deriving DecidableEq, Repr

/-- Recognize an explosion notification (`display.createExplosion`). -/
def Ev.isExplosion : Ev → Bool
  | .explosion _ _ => true
  | _ => false

/-- The fixed `this.config` object of `js/game.js`. -/
structure Config where
  gameTime : ℤ
  playerSpeed : ℚ
  projectileSpeed : ℚ
  bugSpeed : ℚ
  powerUpSpeed : ℚ
  playerSize : ℚ
  projectileSize : ℚ
  bugSize : ℚ
  powerUpSize : ℚ

def config : Config where
  gameTime := 60
  playerSpeed := 6
  projectileSpeed := 6
  bugSpeed := 1
  powerUpSpeed := 3/5
  playerSize := 50
  projectileSize := 4
  bugSize := 40
  powerUpSize := 60

/-- The mutable session state of `PipelineDefenderGame` (the fields the
simulation core reads or writes; `timerInterval` records whether the
countdown interval handle is set). -/
structure GameState where
  gameState : Phase
  isRunning : Bool
  isPaused : Bool
  frameCounter : Nat
  gameWidth : ℚ
  gameHeight : ℚ
  player : Player
  projectiles : List Projectile
  bugs : List Bug
  powerUps : List PowerUp
  score : ℤ
  timeLeft : ℤ
  collectedPowerUps : List PowerUpType
  bugStats : BugStats
  timerInterval : Bool
  lastGameResult : Option GameResult
  nextProjectileId : Nat
  nextBugId : Nat
  nextPowerUpId : Nat
  events : List Ev
deriving DecidableEq, Repr

/-- `isColliding(projectile, target)`: axis-aligned bounding-box overlap. -/
def isColliding (a b : Entity) : Bool :=
  a.x < b.x + b.width && a.x + a.width > b.x &&
  a.y < b.y + b.height && a.y + a.height > b.y

/-- `addScore(points)` (the display callback becomes a `scoreChanged`
notification). -/
def addScore (points : ℤ) (s : GameState) : GameState :=
  { s with score := s.score + points
           events := s.events ++ [.scoreChanged (s.score + points)] }

/-- `endGame(success, message)`: stop the session, clear the countdown
interval, build the result summary, hand it to the screens collaborator
and emit the closing visual feedback. -/
def endGame (success : Bool) (message : String) (s : GameState) : GameState :=
  let result : GameResult :=
    { success := success
      score := s.score
      timeTaken := config.gameTime - s.timeLeft
      bugsKilled := s.bugStats.total
      powerupsCollected := s.collectedPowerUps.length
      bugStats := s.bugStats
      message := message }
  { s with isRunning := false
           gameState := .gameover
           timerInterval := false
           lastGameResult := some result
           events := s.events ++ [.sessionEnded result] ++
             (if success then [.powerUpEffect (s.gameWidth / 2) (s.gameHeight / 2) "SUCCESS"]
              else [.flashWarning, .shakeScreen 2 500]) }

/-- `removeProjectile(index)`: notify the display with the id of the entity,
then `splice(index, 1)`.  When `index` is out of range the JS reads
`undefined` from the array (so the display dereference would fault and,
without a display, the splice is a no-op); only the collection effect is
modelled, and `List.eraseIdx` at an out-of-range index is the identity,
exactly like the splice. -/
def removeProjectile (s : GameState) (index : Nat) : GameState :=
  match s.projectiles[index]? with
  | some p => { s with projectiles := s.projectiles.eraseIdx index
                       events := s.events ++ [.removedProjectile p.id] }
  | none => { s with projectiles := s.projectiles.eraseIdx index }

/-- `removeBug(index)`, same shape as `removeProjectile`. -/
def removeBug (s : GameState) (index : Nat) : GameState :=
  match s.bugs[index]? with
  | some b => { s with bugs := s.bugs.eraseIdx index
                       events := s.events ++ [.removedBug b.id] }
  | none => { s with bugs := s.bugs.eraseIdx index }

/-- `removePowerUp(index)`, same shape as `removeProjectile`. -/
def removePowerUp (s : GameState) (index : Nat) : GameState :=
  match s.powerUps[index]? with
  | some p => { s with powerUps := s.powerUps.eraseIdx index
                       events := s.events ++ [.removedPowerUp p.id] }
  | none => { s with powerUps := s.powerUps.eraseIdx index }

/-- `Object.keys(this.bugToPowerUpMap).find(key => map[key] === type)`:
the first bug type whose power-up is `t` (`none` models `undefined`). -/
def bugTypeFor (t : PowerUpType) : Option BugType :=
  bugTypeKeys.find? (fun k => decide (bugToPowerUpMap k = t))

/-- The bug-elimination loop of `collectPowerUp`: iterate the bug array
from the last index down, and for every bug of the eliminated type emit
an explosion and remove it (`removeBug(i)`).  Returns the remaining bugs
and the emitted notifications; the tail of the list (the higher indices)
is processed first, so its notifications come first. -/
def removeBugsOfType (bt : BugType) : List Bug → List Bug × List Ev
  | [] => ([], [])
  | b :: rest =>
    let (rest', evs) := removeBugsOfType bt rest
    if b.type = bt then
      (rest', evs ++ [.explosion (b.x + b.width / 2) (b.y + b.height / 2), .removedBug b.id])
    else (b :: rest', evs)

/-- `collectPowerUp(powerUp)`: record the collection, award 1000 points,
eliminate every live bug of the mapped type, emit the collection
effects, and end the game with success once `collectedPowerUps.length`
reaches 4. -/
def collectPowerUp (pu : PowerUp) (s : GameState) : GameState :=
  let s := { s with collectedPowerUps := s.collectedPowerUps ++ [pu.type] }
  let s := addScore 1000 s
  let s :=
    match bugTypeFor pu.type with
    | some bt =>
      let (bs, evs) := removeBugsOfType bt s.bugs
      { s with bugs := bs, events := s.events ++ evs }
    | none => s
  let s := { s with events := s.events ++
      [.scorePopup (pu.x + pu.width / 2) pu.y 1000 true,
       .powerUpEffect (pu.x + pu.width / 2) pu.y pu.type.label,
       .pipelineStatus s.collectedPowerUps] }
  if s.collectedPowerUps.length = 4 then
    endGame true "Pipeline secured! Mission complete!" s
  else s

/-- The inner reverse scans of `checkCollisions`: scanning a JS array
from its last index down and stopping at the first hit selects the
*largest* colliding index.  Returns that index and the element there. -/
def lastHit {α : Type} (hit : α → Bool) : List α → Option (Nat × α)
  | [] => none
  | a :: l =>
    match lastHit hit l with
    | some (j, b) => some (j + 1, b)
    | none => if hit a then some (0, a) else none

/-- The body of one iteration of the outer projectile loop of
`checkCollisions`, at projectile index `i`.  The `none` branch is the
`if (!projectile) continue` guard (never taken by the scan, see
`collisionStepAt_bounds`).  On a bug hit the projectile and bug are
removed, 10 points awarded, the kill counter bumped and the explosion
and score-popup effects emitted; otherwise the power-ups are scanned
(the `i < this.projectiles.length && this.projectiles[i]` re-check
re-reads a list no branch has modified, hence equals the first lookup)
and a hit collects the power-up. -/
def collisionStepAt (s : GameState) (i : Nat) : GameState :=
  match s.projectiles[i]? with
  | none => s
  | some p =>
    match lastHit (fun b => isColliding p.toEntity b.toEntity) s.bugs with
    | some (j, bug) =>
      let s := removeProjectile s i
      let s := removeBug s j
      let s := addScore 10 s
      let s := { s with bugStats := s.bugStats.incr bug.type }
      { s with events := s.events ++
          [.explosion (bug.x + bug.width / 2) (bug.y + bug.height / 2),
           .scorePopup (bug.x + bug.width / 2) bug.y 10 false] }
    | none =>
      match lastHit (fun u => isColliding p.toEntity u.toEntity) s.powerUps with
      | some (j, pu) =>
        let s := removeProjectile s i
        let s := removePowerUp s j
        collectPowerUp pu s
      | none => s

/-- The outer loop of `checkCollisions`: indices `length - 1, …, 0`. -/
def checkCollisionsAux : Nat → GameState → GameState
  | 0, s => s
  | i + 1, s => checkCollisionsAux i (collisionStepAt s i)

/-- `checkCollisions()`. -/
def checkCollisions (s : GameState) : GameState :=
  checkCollisionsAux s.projectiles.length s

/-- `updatePlayer()`: integrate the velocity, then clamp
`Math.max(0, Math.min(gameWidth - width, x))`.  (The display callback
carries no session state.) -/
def updatePlayer (s : GameState) : GameState :=
  let x := s.player.x + s.player.velocity
  { s with player := { s.player with x := max 0 (min (s.gameWidth - s.player.width) x) } }

/-- `movePlayer(deltaX)`: same clamp on a direct displacement. -/
def movePlayer (deltaX : ℚ) (s : GameState) : GameState :=
  let x := s.player.x + deltaX
  { s with player := { s.player with x := max 0 (min (s.gameWidth - s.player.width) x) } }

/-- `handleInput()`: sample the movement direction and set the player
velocity to `direction * playerSpeed`. -/
def handleInput (direction : ℚ) (s : GameState) : GameState :=
  { s with player := { s.player with velocity := direction * config.playerSpeed } }

/-- The reverse loop of `updateBugs()` over one bug and the already
processed tail.  Each bug falls by `bugSpeed`; a bug whose bottom edge
reaches `gameHeight - 30` (the `bottomBuffer`) triggers
`endGame(false, …)` and the `return` that aborts the whole loop (the
`Bool` flag; bugs at lower indices are then left untouched); a bug past
`gameHeight` is removed.  The threaded `GameState` carries the fields
`endGame` and the notifications read and write (its stale `bugs` field
is overwritten by `updateBugs`). -/
def updateBugsGo : List Bug → GameState → List Bug × GameState × Bool
  | [], st => ([], st, false)
  | b :: rest, st =>
    match updateBugsGo rest st with
    | (rest', st', true) => (b :: rest', st', true)
    | (rest', st', false) =>
      let b' := { b with y := b.y + config.bugSpeed }
      if st'.gameHeight - 30 ≤ b'.y + b'.height then
        (b' :: rest', endGame false "A bug breached the pipeline! Mission failed." st', true)
      else if st'.gameHeight < b'.y then
        (rest', { st' with events := st'.events ++ [.removedBug b'.id] }, false)
      else (b' :: rest', st', false)

/-- `updateBugs()`. -/
def updateBugs (s : GameState) : GameState :=
  let (bs, st, _) := updateBugsGo s.bugs s
  { st with bugs := bs }

/-- The `setInterval` callback installed by `startTimer()`: every real
second, if running and not paused, decrement the countdown, notify the
display, and end the game with failure when it reaches 0. -/
def timerTick (s : GameState) : GameState :=
  if !s.isPaused && s.isRunning then
    let s := { s with timeLeft := s.timeLeft - 1 }
    let s := { s with events := s.events ++ [.timerChanged s.timeLeft] }
    if s.timeLeft ≤ 0 then endGame false "Time up! Mission failed." s else s
  else s

/-- The `requestAnimationFrame` callback built by `setupGameLoop()`,
parametrized by the per-tick update (`update` + `render`), which may
raise: an exception carries the state, mutations included, that the
heap holds at the moment of the throw.  Returns the new state and whether the next
frame is requested (`requestAnimationFrame(this.gameLoop)`); the catch
branch ends the game and returns without scheduling. -/
def gameLoopStep (tick : GameState → Except (String × GameState) GameState)
    (s : GameState) : GameState × Bool :=
  if !s.isRunning then (s, false)
  else if s.isPaused then (s, true)
  else
    match tick s with
    | .ok s1 => (s1, s1.isRunning)
    | .error (_, sMid) => (endGame false "Game error occurred" sMid, false)

/-- `shoot()`: only in a running, unpaused session create a projectile
above the centre of the player, advance the id counter and notify the
display. -/
def shoot (s : GameState) : GameState :=
  if !s.isRunning || s.isPaused then s
  else
    let projectile : Projectile :=
      { id := s.nextProjectileId
        x := s.player.x + s.player.width / 2 - config.projectileSize / 2
        y := s.player.y - 15
        width := config.projectileSize
        height := 12
        size := config.projectileSize
        hasCollided := false }
    { s with nextProjectileId := s.nextProjectileId + 1
             projectiles := s.projectiles ++ [projectile]
             events := s.events ++ [.createdProjectile projectile.id] }

/-! ### Concrete states used by witnesses and counterexamples -/

/-- A running, unpaused session with fallback bounds (800 × 600), the
player as placed by `resetPlayer`, and empty collections. -/
def baseState : GameState where
  gameState := .playing
  isRunning := true
  isPaused := false
  frameCounter := 0
  gameWidth := 800
  gameHeight := 600
  player := { x := 375, y := 530, width := 50, height := 50, velocity := 0 }
  projectiles := []
  bugs := []
  powerUps := []
  score := 0
  timeLeft := 60
  collectedPowerUps := []
  bugStats := { functionalErrors := 0, securityBugs := 0, qualityBugs := 0, embeddedSecrets := 0 }
  timerInterval := true
  lastGameResult := none
  nextProjectileId := 1
  nextBugId := 1
  nextPowerUpId := 1
  events := []

def projA : Projectile :=
  { id := 1, x := 100, y := 100, width := 4, height := 12, size := 4, hasCollided := false }

def projB : Projectile :=
  { id := 2, x := 300, y := 100, width := 4, height := 12, size := 4, hasCollided := false }

/-! ### C10 -/

/-- C10: calling `shoot()` while the session is not running or is paused
leaves the whole game state unchanged — no projectile is added, the id
counter does not advance, no notification is emitted. -/
theorem shoot_noop_outside_play (s : GameState)
    (h : s.isRunning = false ∨ s.isPaused = true) : shoot s = s := by
  unfold shoot
  rcases h with h | h <;> simp [h]

theorem shoot_noop_outside_play_witness :
    (({ baseState with isRunning := false } : GameState).isRunning = false ∨
      ({ baseState with isRunning := false } : GameState).isPaused = true) ∧
    shoot { baseState with isRunning := false } = { baseState with isRunning := false } :=
  ⟨Or.inl rfl, shoot_noop_outside_play _ (Or.inl rfl)⟩

/-! ### C7 -/

/-- C7: whatever the velocity or displacement and the prior position,
after the motion update (`updatePlayer`, and likewise `movePlayer`) the
the x of the player lies in `[0, gameWidth - playerWidth]` (the play area is
always at least as wide as the player: `updateGameBounds` forces
`gameWidth ≥ 400` while `playerSize = 50`). -/
theorem player_x_clamped (s : GameState) (deltaX : ℚ)
    (h : s.player.width ≤ s.gameWidth) :
    (0 ≤ (updatePlayer s).player.x ∧
      (updatePlayer s).player.x ≤ s.gameWidth - s.player.width) ∧
    (0 ≤ (movePlayer deltaX s).player.x ∧
      (movePlayer deltaX s).player.x ≤ s.gameWidth - s.player.width) := by
  have hA : (0 : ℚ) ≤ s.gameWidth - s.player.width := by linarith
  unfold updatePlayer movePlayer
  exact ⟨⟨le_max_left _ _, max_le hA (min_le_left _ _)⟩,
    ⟨le_max_left _ _, max_le hA (min_le_left _ _)⟩⟩

theorem player_x_clamped_witness :
    (baseState.player.width ≤ baseState.gameWidth) ∧
    ((0 ≤ (updatePlayer baseState).player.x ∧
        (updatePlayer baseState).player.x ≤ baseState.gameWidth - baseState.player.width) ∧
      (0 ≤ (movePlayer 10000 baseState).player.x ∧
        (movePlayer 10000 baseState).player.x ≤ baseState.gameWidth - baseState.player.width)) :=
  ⟨by norm_num [baseState], player_x_clamped baseState 10000 (by norm_num [baseState])⟩

/-! ### C8 -/

/-- C8: an exception raised inside the per-tick update is caught by the
game-loop callback, which immediately ends the session with failure and
the generic message `Game error occurred` and does not request another
frame; `gameLoopStep` is a total function, so no exception escapes to
the caller. -/
theorem tick_error_caught (tick : GameState → Except (String × GameState) GameState)
    (s : GameState) (e : String) (sMid : GameState)
    (hr : s.isRunning = true) (hp : s.isPaused = false)
    (herr : tick s = .error (e, sMid)) :
    gameLoopStep tick s = (endGame false "Game error occurred" sMid, false) ∧
    (gameLoopStep tick s).1.gameState = .gameover ∧
    (gameLoopStep tick s).1.isRunning = false ∧
    (gameLoopStep tick s).1.lastGameResult.map GameResult.success = some false ∧
    (gameLoopStep tick s).1.lastGameResult.map GameResult.message = some "Game error occurred" ∧
    (gameLoopStep tick s).2 = false := by
  have h1 : gameLoopStep tick s = (endGame false "Game error occurred" sMid, false) := by
    unfold gameLoopStep
    simp [hr, hp, herr]
  refine ⟨h1, ?_, ?_, ?_, ?_, ?_⟩ <;> simp [h1, endGame]

theorem tick_error_caught_witness :
    (baseState.isRunning = true) ∧ (baseState.isPaused = false) ∧
    ((fun st => (Except.error ("boom", st) : Except (String × GameState) GameState)) baseState
        = Except.error ("boom", baseState)) ∧
    ((gameLoopStep (fun st => Except.error ("boom", st)) baseState).1.gameState = .gameover ∧
      (gameLoopStep (fun st => Except.error ("boom", st)) baseState).1.isRunning = false ∧
      (gameLoopStep (fun st => Except.error ("boom", st)) baseState).2 = false) := by
  have h := tick_error_caught (fun st => Except.error ("boom", st)) baseState "boom" baseState
    rfl rfl rfl
  exact ⟨rfl, rfl, rfl, h.2.1, h.2.2.1, h.2.2.2.2.2⟩

/-! ### C5 -/

/-- C5: a countdown tick in a running, unpaused session with one second
left (pipeline still incomplete) ends the session with `success =
false` and clears the countdown interval, and the transition happens
only once: on the resulting state another timer callback is the
identity and a simulation tick returns the state unchanged without
scheduling another frame. -/
theorem timer_expiry_ends_once (s : GameState)
    (hr : s.isRunning = true) (hp : s.isPaused = false)
    (ht : s.timeLeft = 1) (hpipe : s.collectedPowerUps.length < 4) :
    (timerTick s).gameState = .gameover ∧
    (timerTick s).isRunning = false ∧
    (timerTick s).timerInterval = false ∧
    (timerTick s).lastGameResult.map GameResult.success = some false ∧
    timerTick (timerTick s) = timerTick s ∧
    (∀ tick, gameLoopStep tick (timerTick s) = (timerTick s, false)) := by
  have hstep : timerTick s = endGame false "Time up! Mission failed."
      { s with timeLeft := s.timeLeft - 1
               events := s.events ++ [.timerChanged (s.timeLeft - 1)] } := by
    unfold timerTick
    simp [hr, hp, ht]
  refine ⟨?_, ?_, ?_, ?_, ?_, fun tick => ?_⟩
  · simp [hstep, endGame]
  · simp [hstep, endGame]
  · simp [hstep, endGame]
  · simp [hstep, endGame]
  · rw [hstep]
    simp [timerTick, endGame]
  · rw [hstep]
    simp [gameLoopStep, endGame]

theorem timer_expiry_ends_once_witness :
    ((baseState.isRunning = true) ∧ (baseState.isPaused = false) ∧
      ({ baseState with timeLeft := 1 } : GameState).timeLeft = 1 ∧
      baseState.collectedPowerUps.length < 4) ∧
    ((timerTick { baseState with timeLeft := 1 }).gameState = .gameover ∧
      (timerTick { baseState with timeLeft := 1 }).isRunning = false ∧
      (timerTick { baseState with timeLeft := 1 }).timerInterval = false ∧
      (timerTick { baseState with timeLeft := 1 }).lastGameResult.map GameResult.success
        = some false ∧
      timerTick (timerTick { baseState with timeLeft := 1 })
        = timerTick { baseState with timeLeft := 1 } ∧
      (∀ tick, gameLoopStep tick (timerTick { baseState with timeLeft := 1 })
        = (timerTick { baseState with timeLeft := 1 }, false))) :=
  ⟨⟨rfl, rfl, rfl, by norm_num [baseState]⟩,
    timer_expiry_ends_once { baseState with timeLeft := 1 } rfl rfl rfl
      (by norm_num [baseState])⟩

/-! ### C9 -/

def s9 : GameState := { baseState with projectiles := [projA, projB] }

/-- C9 counterexample: removal is **not** idempotent.  In the state `s9`
with two live projectiles, invoking `removeProjectile 0` (which removes
`projA`) and then invoking the same removal again does not leave the
collection unchanged — the second call removes `projB`, the entity that
has shifted into index 0. -/
theorem removal_not_idempotent :
    (removeProjectile (removeProjectile s9 0) 0).projectiles
      ≠ (removeProjectile s9 0).projectiles := by
  simp [removeProjectile, s9, baseState, projA, projB]

/-- C9 (amended): entity removal is index-based, not id-based.  A
removal call always erases whatever entity currently occupies the given
index (so repeating a removal after the entity is gone removes a
different entity when the index is still in range), it never touches
the other collections, the score or the kill counters, and only when
the index is out of range does it leave its own collection unchanged. -/
theorem removal_is_index_based (s : GameState) (i : Nat) :
    ((removeProjectile s i).projectiles = s.projectiles.eraseIdx i ∧
      (removeProjectile s i).bugs = s.bugs ∧
      (removeProjectile s i).powerUps = s.powerUps ∧
      (removeProjectile s i).score = s.score ∧
      (removeProjectile s i).bugStats = s.bugStats ∧
      (s.projectiles.length ≤ i → (removeProjectile s i).projectiles = s.projectiles)) ∧
    ((removeBug s i).bugs = s.bugs.eraseIdx i ∧
      (removeBug s i).projectiles = s.projectiles ∧
      (removeBug s i).powerUps = s.powerUps ∧
      (removeBug s i).score = s.score ∧
      (removeBug s i).bugStats = s.bugStats ∧
      (s.bugs.length ≤ i → (removeBug s i).bugs = s.bugs)) ∧
    ((removePowerUp s i).powerUps = s.powerUps.eraseIdx i ∧
      (removePowerUp s i).projectiles = s.projectiles ∧
      (removePowerUp s i).bugs = s.bugs ∧
      (removePowerUp s i).score = s.score ∧
      (removePowerUp s i).bugStats = s.bugStats ∧
      (s.powerUps.length ≤ i → (removePowerUp s i).powerUps = s.powerUps)) := by
  have hP : (removeProjectile s i).projectiles = s.projectiles.eraseIdx i ∧
      (removeProjectile s i).bugs = s.bugs ∧ (removeProjectile s i).powerUps = s.powerUps ∧
      (removeProjectile s i).score = s.score ∧ (removeProjectile s i).bugStats = s.bugStats := by
    cases h : s.projectiles[i]? <;> simp [removeProjectile, h]
  have hB : (removeBug s i).bugs = s.bugs.eraseIdx i ∧
      (removeBug s i).projectiles = s.projectiles ∧ (removeBug s i).powerUps = s.powerUps ∧
      (removeBug s i).score = s.score ∧ (removeBug s i).bugStats = s.bugStats := by
    cases h : s.bugs[i]? <;> simp [removeBug, h]
  have hU : (removePowerUp s i).powerUps = s.powerUps.eraseIdx i ∧
      (removePowerUp s i).projectiles = s.projectiles ∧ (removePowerUp s i).bugs = s.bugs ∧
      (removePowerUp s i).score = s.score ∧ (removePowerUp s i).bugStats = s.bugStats := by
    cases h : s.powerUps[i]? <;> simp [removePowerUp, h]
  exact ⟨⟨hP.1, hP.2.1, hP.2.2.1, hP.2.2.2.1, hP.2.2.2.2,
      fun hlen => hP.1.trans (List.eraseIdx_of_length_le hlen)⟩,
    ⟨hB.1, hB.2.1, hB.2.2.1, hB.2.2.2.1, hB.2.2.2.2,
      fun hlen => hB.1.trans (List.eraseIdx_of_length_le hlen)⟩,
    ⟨hU.1, hU.2.1, hU.2.2.1, hU.2.2.2.1, hU.2.2.2.2,
      fun hlen => hU.1.trans (List.eraseIdx_of_length_le hlen)⟩⟩

theorem removal_is_index_based_witness :
    (s9.projectiles.length ≤ 2) ∧ ((removeProjectile s9 2).projectiles = s9.projectiles) :=
  ⟨by simp [s9, baseState],
    (removal_is_index_based s9 2).1.2.2.2.2.2 (by simp [s9, baseState])⟩

/-! ### C4 -/

/-- While the bug loop has not been aborted by a breach, the threaded
state has only accumulated removal notifications: score, counters,
bounds and session phase are untouched. -/
theorem updateBugsGo_not_aborted (l : List Bug) (st : GameState)
    (h : (updateBugsGo l st).2.2 = false) :
    (updateBugsGo l st).2.1.score = st.score ∧
    (updateBugsGo l st).2.1.bugStats = st.bugStats ∧
    (updateBugsGo l st).2.1.gameHeight = st.gameHeight ∧
    (updateBugsGo l st).2.1.gameState = st.gameState ∧
    (updateBugsGo l st).2.1.isRunning = st.isRunning ∧
    (updateBugsGo l st).2.1.lastGameResult = st.lastGameResult := by
  induction l with
  | nil => simp [updateBugsGo]
  | cons b rest ih =>
    rcases hgo : updateBugsGo rest st with ⟨rest', st', ab⟩
    rw [hgo] at ih
    simp only [updateBugsGo, hgo] at h ⊢
    cases ab with
    | true => simp at h
    | false =>
      rcases ih rfl with ⟨i1, i2, i3, i4, i5, i6⟩
      by_cases h1 : st'.gameHeight - 30 ≤ b.y + config.bugSpeed + b.height
      · simp [h1] at h
      · by_cases h2 : st'.gameHeight < b.y + config.bugSpeed
        · simp [h1, h2]
          exact ⟨i1, i2, i3, i4, i5, i6⟩
        · simp [h1, h2]
          exact ⟨i1, i2, i3, i4, i5, i6⟩

/-- Once the bug loop has aborted, the threaded state is the
`endGame(false, …)` of a state whose score and counters equal the
initial ones. -/
theorem updateBugsGo_aborted (l : List Bug) (st : GameState)
    (h : (updateBugsGo l st).2.2 = true) :
    (updateBugsGo l st).2.1.gameState = .gameover ∧
    (updateBugsGo l st).2.1.isRunning = false ∧
    (updateBugsGo l st).2.1.timerInterval = false ∧
    (updateBugsGo l st).2.1.lastGameResult.map GameResult.success = some false ∧
    (updateBugsGo l st).2.1.score = st.score ∧
    (updateBugsGo l st).2.1.bugStats = st.bugStats := by
  induction l with
  | nil => simp [updateBugsGo] at h
  | cons b rest ih =>
    rcases hgo : updateBugsGo rest st with ⟨rest', st', ab⟩
    rw [hgo] at ih
    simp only [updateBugsGo, hgo] at h ⊢
    cases ab with
    | true => simpa using ih rfl
    | false =>
      have hna := updateBugsGo_not_aborted rest st (by rw [hgo])
      rw [hgo] at hna
      have n1 : st'.score = st.score := hna.1
      have n2 : st'.bugStats = st.bugStats := hna.2.1
      by_cases h1 : st'.gameHeight - 30 ≤ b.y + config.bugSpeed + b.height
      · simp [h1, endGame]
        exact ⟨n1, n2⟩
      · by_cases h2 : st'.gameHeight < b.y + config.bugSpeed
        · simp [h1, h2] at h
        · simp [h1, h2] at h

/-- A bug whose post-move bottom edge reaches the bottom threshold makes
the loop abort. -/
theorem updateBugsGo_breach (l : List Bug) (st : GameState)
    (h : ∃ b ∈ l, st.gameHeight - 30 ≤ b.y + config.bugSpeed + b.height) :
    (updateBugsGo l st).2.2 = true := by
  induction l with
  | nil => simp at h
  | cons b rest ih =>
    rcases hgo : updateBugsGo rest st with ⟨rest', st', ab⟩
    rw [hgo] at ih
    simp only [updateBugsGo, hgo]
    cases ab with
    | true => simp
    | false =>
      have hna := updateBugsGo_not_aborted rest st (by rw [hgo])
      rw [hgo] at hna
      have hH : st'.gameHeight = st.gameHeight := hna.2.2.1
      rcases h with ⟨c, hc, hbreach⟩
      rcases List.mem_cons.mp hc with rfl | hcrest
      · have h1 : st'.gameHeight - 30 ≤ c.y + config.bugSpeed + c.height := by
          rw [hH]; exact hbreach
        simp [h1]
      · have := ih ⟨c, hcrest, hbreach⟩
        simp at this

/-- C4: whenever, after the per-tick fall, the bottom edge of some bug
reaches or passes the bottom threshold `gameHeight - 30` (the fixed
buffer above the player), `updateBugs` immediately ends the session
with failure — variant (a), immediate session loss — and applies no
score penalty and no counter change. -/
theorem bug_breach_ends_session (s : GameState)
    (h : ∃ b ∈ s.bugs, s.gameHeight - 30 ≤ b.y + config.bugSpeed + b.height) :
    (updateBugs s).gameState = .gameover ∧
    (updateBugs s).isRunning = false ∧
    (updateBugs s).lastGameResult.map GameResult.success = some false ∧
    (updateBugs s).score = s.score ∧
    (updateBugs s).bugStats = s.bugStats := by
  have hab := updateBugsGo_breach s.bugs s h
  have hprops := updateBugsGo_aborted s.bugs s hab
  rcases hgo : updateBugsGo s.bugs s with ⟨bs, st, ab⟩
  rw [hgo] at hprops
  simp only [updateBugs, hgo]
  exact ⟨hprops.1, hprops.2.1, hprops.2.2.2.1, hprops.2.2.2.2.1, hprops.2.2.2.2.2⟩

def bugBreach : Bug :=
  { id := 1, x := 100, y := 540, width := 40, height := 40, size := 40,
    type := .functionalErrors }

def s4 : GameState := { baseState with bugs := [bugBreach] }

theorem bug_breach_ends_session_witness :
    (∃ b ∈ s4.bugs, s4.gameHeight - 30 ≤ b.y + config.bugSpeed + b.height) ∧
    ((updateBugs s4).gameState = .gameover ∧
      (updateBugs s4).isRunning = false ∧
      (updateBugs s4).lastGameResult.map GameResult.success = some false ∧
      (updateBugs s4).score = s4.score ∧
      (updateBugs s4).bugStats = s4.bugStats) :=
  ⟨⟨bugBreach, by simp [s4, baseState], by norm_num [s4, baseState, bugBreach, config]⟩,
    bug_breach_ends_session s4
      ⟨bugBreach, by simp [s4, baseState], by norm_num [s4, baseState, bugBreach, config]⟩⟩

/-! ### C3 -/

/-- The inverse of `bugToPowerUpMap` (it is a bijection). -/
def powerUpToBugMap : PowerUpType → BugType
  | .TEST => .functionalErrors
  | .SEC => .securityBugs
  | .QUAL => .qualityBugs
  | .CSM => .embeddedSecrets

theorem bugTypeFor_eq (t : PowerUpType) : bugTypeFor t = some (powerUpToBugMap t) := by
  cases t <;> rfl

theorem bugToPowerUpMap_eq_iff (b : BugType) (t : PowerUpType) :
    bugToPowerUpMap b = t ↔ b = powerUpToBugMap t := by
  cases b <;> cases t <;> simp [bugToPowerUpMap, powerUpToBugMap]

/-- The elimination loop keeps exactly the bugs of other types and emits
exactly one explosion per removed bug. -/
theorem removeBugsOfType_spec (bt : BugType) (l : List Bug) :
    (removeBugsOfType bt l).1 = l.filter (fun b => !decide (b.type = bt)) ∧
    (removeBugsOfType bt l).2.countP Ev.isExplosion
      = l.countP (fun b => decide (b.type = bt)) := by
  induction l with
  | nil => simp [removeBugsOfType]
  | cons b rest ih =>
    rcases hrm : removeBugsOfType bt rest with ⟨rest', evs⟩
    simp only [hrm] at ih
    by_cases hb : b.type = bt
    · simp [removeBugsOfType, hrm, hb, List.countP_cons, List.countP_append, Ev.isExplosion]
      refine ⟨ih.1, ?_⟩
      have h2 := ih.2
      omega
    · simp [removeBugsOfType, hrm, hb, List.countP_cons]
      exact ⟨ih.1, ih.2⟩

/-- `collectPowerUp` leaves the projectile collection and the kill
counters alone (used for the collision-resolution safety proof). -/
theorem collectPowerUp_frame (pu : PowerUp) (s : GameState) :
    (collectPowerUp pu s).projectiles = s.projectiles ∧
    (collectPowerUp pu s).bugStats = s.bugStats ∧
    (collectPowerUp pu s).powerUps = s.powerUps := by
  unfold collectPowerUp
  rw [bugTypeFor_eq]
  by_cases hlen : s.collectedPowerUps.length = 3 <;>
    simp [hlen, endGame, addScore]

/-- C3: collecting a power-up of type `X` adds exactly 1000 to the
score, appends `X` to the collection history (so `X` is in the
unique-collected set afterwards), removes from the live bug collection
exactly the bugs of the type `bugToPowerUpMap` sends to `X`
(TEST↔Functional Errors, SEC↔Security Bugs, QUAL↔Quality Bugs,
CSM↔Embedded Secrets) — bugs of other types are kept unchanged, in
order — and emits exactly one explosion notification per removed bug. -/
theorem collect_eliminates_mapped_bugs (pu : PowerUp) (s : GameState) :
    (collectPowerUp pu s).score = s.score + 1000 ∧
    (collectPowerUp pu s).collectedPowerUps = s.collectedPowerUps ++ [pu.type] ∧
    pu.type ∈ (collectPowerUp pu s).collectedPowerUps ∧
    (collectPowerUp pu s).bugs
      = s.bugs.filter (fun b => !decide (bugToPowerUpMap b.type = pu.type)) ∧
    (collectPowerUp pu s).events.countP Ev.isExplosion
      = s.events.countP Ev.isExplosion
        + s.bugs.countP (fun b => decide (bugToPowerUpMap b.type = pu.type)) := by
  have hfilter : (s.bugs.filter (fun b => !decide (b.type = powerUpToBugMap pu.type)))
      = s.bugs.filter (fun b => !decide (bugToPowerUpMap b.type = pu.type)) := by
    apply List.filter_congr
    intro b _
    simp [bugToPowerUpMap_eq_iff]
  have hcount : (s.bugs.countP (fun b => decide (b.type = powerUpToBugMap pu.type)))
      = s.bugs.countP (fun b => decide (bugToPowerUpMap b.type = pu.type)) := by
    apply List.countP_congr
    intro b _
    simp [bugToPowerUpMap_eq_iff]
  have hspec := removeBugsOfType_spec (powerUpToBugMap pu.type) s.bugs
  unfold collectPowerUp
  rw [bugTypeFor_eq]
  by_cases hlen : s.collectedPowerUps.length = 3 <;>
    simp [hlen, endGame, addScore, List.countP_append, List.countP_cons, Ev.isExplosion,
      hspec.1, hspec.2, hfilter, ← hcount]

/-! ### C6 -/

/-- If no element satisfies the predicate, the reverse scan finds no hit. -/
theorem lastHit_eq_none_of_all {α : Type} (hit : α → Bool) (l : List α)
    (h : ∀ a ∈ l, hit a = false) : lastHit hit l = none := by
  induction l with
  | nil => rfl
  | cons a l ih =>
    simp [lastHit, ih (fun x hx => h x (List.mem_cons_of_mem a hx)),
      h a (List.mem_cons_self a l)]

/-- If the reverse scan finds no hit, no element satisfies the predicate. -/
theorem lastHit_eq_none_forall {α : Type} (hit : α → Bool) (l : List α)
    (h : lastHit hit l = none) : ∀ a ∈ l, hit a = false := by
  induction l with
  | nil => simp
  | cons a l ih =>
    cases hl : lastHit hit l with
    | some p => simp [lastHit, hl] at h
    | none =>
      simp only [lastHit, hl] at h
      by_cases ha : hit a
      · simp [ha] at h
      · intro x hx
        rcases List.mem_cons.mp hx with rfl | hx'
        · simpa using ha
        · exact ih hl x hx'

/-- What a hit of the reverse scan means: the returned index is in
range, holds the returned element, that element satisfies the
predicate, and every element at a larger index fails it (the scan runs
from the last index down and stops at the first hit). -/
theorem lastHit_spec {α : Type} (hit : α → Bool) (l : List α) (j : Nat) (a : α)
    (h : lastHit hit l = some (j, a)) :
    j < l.length ∧ l[j]? = some a ∧ hit a = true ∧
      ∀ k, j < k → ∀ b, l[k]? = some b → hit b = false := by
  induction l generalizing j a with
  | nil => simp [lastHit] at h
  | cons c l ih =>
    cases hl : lastHit hit l with
    | some p =>
      rcases p with ⟨j', a'⟩
      simp only [lastHit, hl] at h
      rcases Option.some.inj h with h'
      rcases Prod.mk.injEq _ _ _ _ ▸ h' with ⟨rfl, rfl⟩
      rcases ih j' a' hl with ⟨h1, h2, h3, h4⟩
      refine ⟨by simpa using Nat.succ_lt_succ h1, by simpa using h2, h3, ?_⟩
      intro k hk b hb
      cases k with
      | zero => omega
      | succ k' =>
        rw [List.getElem?_cons_succ] at hb
        exact h4 k' (Nat.lt_of_succ_lt_succ hk) b hb
    | none =>
      simp only [lastHit, hl] at h
      by_cases hc : hit c
      · simp only [hc, if_true] at h
        rcases Option.some.inj h with h'
        rcases Prod.mk.injEq _ _ _ _ ▸ h' with ⟨rfl, rfl⟩
        refine ⟨by simp, by simp, hc, ?_⟩
        intro k hk b hb
        cases k with
        | zero => omega
        | succ k' =>
          rw [List.getElem?_cons_succ] at hb
          exact lastHit_eq_none_forall hit l hl b
            (List.mem_iff_getElem?.mpr ⟨k', hb⟩)
      · simp [hc] at h

/-- When exactly one position of the list satisfies the predicate,
erasing that position is the same as filtering the predicate out. -/
theorem eraseIdx_eq_filter_of_unique {α : Type} (hit : α → Bool) (l : List α)
    (j : Nat) (a : α) (hj : l[j]? = some a) (ha : hit a = true)
    (hother : ∀ k, k ≠ j → ∀ b, l[k]? = some b → hit b = false) :
    l.eraseIdx j = l.filter (fun x => !hit x) := by
  induction l generalizing j with
  | nil => simp at hj
  | cons c l ih =>
    cases j with
    | zero =>
      simp only [List.getElem?_cons_zero] at hj
      rcases Option.some.inj hj with rfl
      have htl : List.filter (fun x => !hit x) l = l := by
        rw [List.filter_eq_self]
        intro x hx
        rcases List.mem_iff_getElem?.mp hx with ⟨k, hk⟩
        have := hother (k + 1) (by omega) x (by simpa using hk)
        simp [this]
      simp [List.eraseIdx_cons_zero, List.filter_cons, ha, htl]
    | succ j' =>
      simp only [List.getElem?_cons_succ] at hj
      have hc : hit c = false := hother 0 (by omega) c (by simp)
      have hrec : l.eraseIdx j' = List.filter (fun x => !hit x) l :=
        ih j' hj (fun k hk b hb => hother (k + 1) (by omega) b (by simpa using hb))
      simp [List.eraseIdx_cons_succ, List.filter_cons, hc, hrec]

/-- C6: within the collision resolution of a single tick each projectile destroys at
most one target and never both a bug and a power-up: the per-projectile
step either leaves the state unchanged, or removes the projectile and
exactly one bug (power-ups and the collected set untouched), or removes
the projectile and exactly one power-up (the kill counters untouched —
no bug was shot).  Moreover the reverse scan is index-safe: at every
index it visits the lookup succeeds, and after the step the remaining
indices are still within the shortened collection. -/
theorem projectile_hits_at_most_one (s : GameState) (i : Nat) :
    (collisionStepAt s i = s ∨
      (∃ j, j < s.bugs.length ∧
        (collisionStepAt s i).projectiles = s.projectiles.eraseIdx i ∧
        (collisionStepAt s i).bugs = s.bugs.eraseIdx j ∧
        (collisionStepAt s i).powerUps = s.powerUps ∧
        (collisionStepAt s i).collectedPowerUps = s.collectedPowerUps) ∨
      (∃ j, j < s.powerUps.length ∧
        (collisionStepAt s i).projectiles = s.projectiles.eraseIdx i ∧
        (collisionStepAt s i).powerUps = s.powerUps.eraseIdx j ∧
        (collisionStepAt s i).bugStats = s.bugStats)) ∧
    (i < s.projectiles.length → (s.projectiles[i]?).isSome = true ∧
      i ≤ (collisionStepAt s i).projectiles.length) := by
  have H : collisionStepAt s i = s ∨
      (∃ j, j < s.bugs.length ∧
        (collisionStepAt s i).projectiles = s.projectiles.eraseIdx i ∧
        (collisionStepAt s i).bugs = s.bugs.eraseIdx j ∧
        (collisionStepAt s i).powerUps = s.powerUps ∧
        (collisionStepAt s i).collectedPowerUps = s.collectedPowerUps) ∨
      (∃ j, j < s.powerUps.length ∧
        (collisionStepAt s i).projectiles = s.projectiles.eraseIdx i ∧
        (collisionStepAt s i).powerUps = s.powerUps.eraseIdx j ∧
        (collisionStepAt s i).bugStats = s.bugStats) := by
    unfold collisionStepAt
    split
    · exact Or.inl rfl
    next p hp =>
      split
      next j bug hb =>
        rcases lastHit_spec _ _ _ _ hb with ⟨hjlen, hjget, _, _⟩
        refine Or.inr (Or.inl ⟨j, hjlen, ?_, ?_, ?_, ?_⟩) <;>
          simp [removeProjectile, removeBug, addScore, hp, hjget]
      next hb =>
        split
        next j pu hu =>
          rcases lastHit_spec _ _ _ _ hu with ⟨hjlen, hjget, _, _⟩
          have hframe := collectPowerUp_frame pu (removePowerUp (removeProjectile s i) j)
          dsimp only
          rw [hframe.1, hframe.2.1, hframe.2.2]
          refine Or.inr (Or.inr ⟨j, hjlen, ?_, ?_, ?_⟩) <;>
            simp [removeProjectile, removePowerUp, hp, hjget]
        next hu => exact Or.inl rfl
  refine ⟨H, fun hlen => ⟨by simp [List.getElem?_eq_getElem hlen], ?_⟩⟩
  rcases H with H | ⟨j, _, hproj, _⟩ | ⟨j, _, hproj, _⟩
  · rw [H]
    omega
  · rw [hproj, List.length_eraseIdx_of_lt hlen]
    omega
  · rw [hproj, List.length_eraseIdx_of_lt hlen]
    omega

theorem projectile_hits_at_most_one_witness :
    (1 < s9.projectiles.length) ∧
    ((s9.projectiles[1]?).isSome = true ∧
      1 ≤ (collisionStepAt s9 1).projectiles.length) :=
  ⟨by simp [s9, baseState],
    (projectile_hits_at_most_one s9 1).2 (by simp [s9, baseState])⟩

/-! ### C2 -/

/-- Splitting a `countP` along a second predicate. -/
theorem countP_split {α : Type} (l : List α) (p q : α → Bool) :
    l.countP p = l.countP (fun a => p a && q a) + l.countP (fun a => p a && !q a) := by
  induction l with
  | nil => simp
  | cons a l ih =>
    by_cases hp : p a <;> by_cases hq : q a <;>
      simp [List.countP_cons, hp, hq, ih] <;> omega

/-- In a duplicate-free list a present element is counted exactly once. -/
theorem countP_unique_of_nodup {α : Type} [DecidableEq α] (l : List α) (b : α)
    (hb : b ∈ l) (hn : l.Nodup) : l.countP (fun c => decide (c = b)) = 1 := by
  induction l with
  | nil => simp at hb
  | cons a l ih =>
    rcases List.nodup_cons.mp hn with ⟨ha, hn'⟩
    rcases List.mem_cons.mp hb with rfl | hb'
    · have hz : l.countP (fun c => decide (c = b)) = 0 := by
        rw [List.countP_eq_zero]
        intro c hc
        simp only [decide_eq_true_eq]
        rintro rfl
        exact ha hc
      simp [List.countP_cons, hz]
    · have hab : ¬(a = b) := fun h => ha (h ▸ hb')
      simp [List.countP_cons, hab, ih hb' hn']

/-- Filtering away only elements that fail `g` does not change `any g`. -/
theorem any_filter_of_imp {α : Type} (l : List α) (f g : α → Bool)
    (h : ∀ a ∈ l, g a = true → f a = true) :
    (l.filter f).any g = l.any g := by
  induction l with
  | nil => simp
  | cons a l ih =>
    have ih' := ih (fun x hx => h x (List.mem_cons_of_mem a hx))
    by_cases hf : f a
    · simp [List.filter_cons, hf, ih']
    · have hg : g a = false := by
        cases hga : g a
        · rfl
        · exact absurd (h a (List.mem_cons_self a l) hga) (by simp [hf])
      simp [List.filter_cons, hf, hg, ih']

theorem getElem?_append_middle {α : Type} (xs : List α) (y : α) (ys : List α) :
    (xs ++ y :: ys)[xs.length]? = some y := by
  rw [List.getElem?_append_right (Nat.le_refl _)]
  simp

theorem eraseIdx_append_middle {α : Type} (xs : List α) (y : α) (ys : List α) :
    (xs ++ y :: ys).eraseIdx xs.length = xs ++ ys := by
  rw [List.eraseIdx_append_of_length_le (Nat.le_refl _)]
  simp

theorem BugStats.get_incr (st : BugStats) (t t' : BugType) :
    (st.incr t).get t' = st.get t' + (if t = t' then 1 else 0) := by
  cases t <;> cases t' <;> simp [BugStats.incr, BugStats.get]

/-- The per-projectile collision step when the scan finds a bug at index
`j`: the projectile and that bug are erased, 10 points awarded, the kill
counter of the type of that bug bumped, power-ups and the collected set
untouched. -/
theorem collisionStepAt_hit (s : GameState) (i j : Nat) (p : Projectile) (b : Bug)
    (hp : s.projectiles[i]? = some p)
    (hb : lastHit (fun c => isColliding p.toEntity c.toEntity) s.bugs = some (j, b))
    (hjget : s.bugs[j]? = some b) :
    (collisionStepAt s i).projectiles = s.projectiles.eraseIdx i ∧
    (collisionStepAt s i).bugs = s.bugs.eraseIdx j ∧
    (collisionStepAt s i).powerUps = s.powerUps ∧
    (collisionStepAt s i).score = s.score + 10 ∧
    (collisionStepAt s i).bugStats = s.bugStats.incr b.type ∧
    (collisionStepAt s i).collectedPowerUps = s.collectedPowerUps := by
  unfold collisionStepAt
  split
  next hnone => rw [hp] at hnone; cases hnone
  next p' hp' =>
    rw [hp] at hp'
    rcases Option.some.inj hp' with rfl
    split
    next j' b' hb' =>
      rw [hb] at hb'
      rcases Option.some.inj hb' with heq
      rcases Prod.mk.injEq _ _ _ _ ▸ heq with ⟨rfl, rfl⟩
      refine ⟨?_, ?_, ?_, ?_, ?_, ?_⟩ <;>
        simp [removeProjectile, removeBug, addScore, hp, hjget]
    next hb' => rw [hb] at hb'; cases hb'

/-- The per-projectile collision step when the scan hits nothing: the
state is returned unchanged. -/
theorem collisionStepAt_miss (s : GameState) (i : Nat) (p : Projectile)
    (hp : s.projectiles[i]? = some p)
    (hb : lastHit (fun c => isColliding p.toEntity c.toEntity) s.bugs = none)
    (hu : lastHit (fun c => isColliding p.toEntity c.toEntity) s.powerUps = none) :
    collisionStepAt s i = s := by
  unfold collisionStepAt
  split
  next => rfl
  next p' hp' =>
    rw [hp] at hp'
    rcases Option.some.inj hp' with rfl
    split
    next j' b' hb' => rw [hb] at hb'; cases hb'
    next =>
      split
      next j' u' hu' => rw [hu] at hu'; cases hu'
      next => rfl

/-- The invariant of the reverse projectile scan of `checkCollisions`
under a perfect matching.  `pre` is the part of the projectile array the
scan still has to visit (indices `0 … pre.length − 1`); `rest` sits at
or above the scan position and is never touched again.  When every
projectile overlaps at most one bug, every bug at most one projectile,
and no projectile overlaps a power-up, the scan removes exactly the
matched pairs, awards 10 points per pair, and bumps each kill counter
once per removed bug of that type. -/
theorem checkCollisionsAux_matching (pre : List Projectile) :
    ∀ (s : GameState) (rest : List Projectile),
    s.projectiles = pre ++ rest →
    pre.Nodup →
    s.bugs.Nodup →
    (∀ q ∈ pre, ∀ u ∈ s.powerUps, isColliding q.toEntity u.toEntity = false) →
    (∀ q ∈ pre, ∀ b1 ∈ s.bugs, ∀ b2 ∈ s.bugs,
      isColliding q.toEntity b1.toEntity = true →
      isColliding q.toEntity b2.toEntity = true → b1 = b2) →
    (∀ c ∈ s.bugs, ∀ q1 ∈ pre, ∀ q2 ∈ pre,
      isColliding q1.toEntity c.toEntity = true →
      isColliding q2.toEntity c.toEntity = true → q1 = q2) →
    (checkCollisionsAux pre.length s).projectiles
        = pre.filter (fun q => !(s.bugs.any (fun c => isColliding q.toEntity c.toEntity)))
          ++ rest ∧
    (checkCollisionsAux pre.length s).bugs
        = s.bugs.filter (fun c => !(pre.any (fun q => isColliding q.toEntity c.toEntity))) ∧
    (checkCollisionsAux pre.length s).powerUps = s.powerUps ∧
    (checkCollisionsAux pre.length s).score
        = s.score + 10 * (pre.countP
            (fun q => s.bugs.any (fun c => isColliding q.toEntity c.toEntity)) : ℤ) ∧
    (∀ t, (checkCollisionsAux pre.length s).bugStats.get t
        = s.bugStats.get t + s.bugs.countP
            (fun c => (pre.any (fun q => isColliding q.toEntity c.toEntity))
              && decide (c.type = t))) := by
  induction pre using List.reverseRecOn with
  | nil =>
    intro s rest hs _ _ _ _ _
    simp [checkCollisionsAux, hs]
  | append_singleton pre₀ p ih =>
    intro s rest hs hnodupP hnodupB hPU hP1 hB1
    have hnodup₀ : pre₀.Nodup := (List.nodup_append.mp hnodupP).1
    have hpnot : p ∉ pre₀ := by
      have hdisj := (List.nodup_append.mp hnodupP).2.2
      intro hin
      exact hdisj hin (by simp)
    have hpmem : p ∈ pre₀ ++ [p] := by simp
    have hmemP : ∀ q ∈ pre₀, q ∈ pre₀ ++ [p] := fun q hq => List.mem_append_left _ hq
    have hsplit : s.projectiles = pre₀ ++ p :: rest := by
      rw [hs, List.append_assoc]
      rfl
    have hpget : s.projectiles[pre₀.length]? = some p := by
      rw [hsplit]
      exact getElem?_append_middle _ _ _
    have hauxlen : (pre₀ ++ [p]).length = pre₀.length + 1 := by simp
    have haux : checkCollisionsAux (pre₀.length + 1) s
        = checkCollisionsAux pre₀.length (collisionStepAt s pre₀.length) := rfl
    by_cases hany : s.bugs.any (fun c => isColliding p.toEntity c.toEntity) = true
    · rcases List.any_eq_true.mp hany with ⟨b0, hb0mem, hb0col⟩
      cases hlast : lastHit (fun c => isColliding p.toEntity c.toEntity) s.bugs with
      | none =>
        have hf := lastHit_eq_none_forall _ _ hlast b0 hb0mem
        rw [hb0col] at hf
        cases hf
      | some q =>
        rcases q with ⟨j, b⟩
        rcases lastHit_spec _ _ _ _ hlast with ⟨hjlen, hjget, hbcol, _⟩
        have hbmem : b ∈ s.bugs := List.mem_iff_getElem?.mpr ⟨j, hjget⟩
        have huniq : ∀ c ∈ s.bugs, isColliding p.toEntity c.toEntity = true → c = b :=
          fun c hc hcol => hP1 p hpmem c hc b hbmem hcol hbcol
        have hother : ∀ k, k ≠ j → ∀ c, s.bugs[k]? = some c →
            isColliding p.toEntity c.toEntity = false := by
          intro k hk c hkget
          cases hcol : isColliding p.toEntity c.toEntity
          · rfl
          · exfalso
            have hcb : c = b := huniq c (List.mem_iff_getElem?.mpr ⟨k, hkget⟩) hcol
            subst hcb
            rcases List.getElem?_eq_some_iff.mp hkget with ⟨hklt, _⟩
            exact hk (List.getElem?_inj hklt hnodupB (by rw [hkget, hjget]))
        have herase : s.bugs.eraseIdx j
            = s.bugs.filter (fun c => !(isColliding p.toEntity c.toEntity)) :=
          eraseIdx_eq_filter_of_unique _ _ _ _ hjget hbcol hother
        have hstep := collisionStepAt_hit s pre₀.length j p b hpget hlast hjget
        have hbugs1 : (collisionStepAt s pre₀.length).bugs
            = s.bugs.filter (fun c => !(isColliding p.toEntity c.toEntity)) := by
          rw [hstep.2.1, herase]
        have hanyeq : ∀ q ∈ pre₀,
            ((collisionStepAt s pre₀.length).bugs.any
              (fun c => isColliding q.toEntity c.toEntity))
            = s.bugs.any (fun c => isColliding q.toEntity c.toEntity) := by
          intro q hq
          rw [hbugs1]
          apply any_filter_of_imp
          intro c hc hqc
          have hpc : isColliding p.toEntity c.toEntity = false := by
            cases hpc : isColliding p.toEntity c.toEntity
            · rfl
            · exact absurd ((hB1 c hc q (hmemP q hq) p hpmem hqc hpc) ▸ hq) hpnot
          simp [hpc]
        have hproj1 : (collisionStepAt s pre₀.length).projectiles = pre₀ ++ rest := by
          rw [hstep.1, hsplit, eraseIdx_append_middle]
        have hpu1 : (collisionStepAt s pre₀.length).powerUps = s.powerUps := hstep.2.2.1
        obtain ⟨c1, c2, c3, c4, c5⟩ := ih (collisionStepAt s pre₀.length) rest hproj1 hnodup₀
          (by rw [hbugs1]; exact hnodupB.filter _)
          (fun q hq u hu => hPU q (hmemP q hq) u (by rwa [hpu1] at hu))
          (fun q hq b1 hb1 b2 hb2 h1 h2 => hP1 q (hmemP q hq)
            b1 (List.mem_of_mem_filter (hbugs1 ▸ hb1))
            b2 (List.mem_of_mem_filter (hbugs1 ▸ hb2)) h1 h2)
          (fun c hc q1 hq1 q2 hq2 h1 h2 => hB1 c (List.mem_of_mem_filter (hbugs1 ▸ hc))
            q1 (hmemP q1 hq1) q2 (hmemP q2 hq2) h1 h2)
        rw [hauxlen]
        rw [haux]
        refine ⟨?_, ?_, ?_, ?_, ?_⟩
        · rw [c1]
          have hcongr : pre₀.filter (fun q => !((collisionStepAt s pre₀.length).bugs.any
                (fun c => isColliding q.toEntity c.toEntity)))
              = pre₀.filter (fun q =>
                !(s.bugs.any (fun c => isColliding q.toEntity c.toEntity))) := by
            apply List.filter_congr
            intro q hq
            rw [hanyeq q hq]
          rw [hcongr, List.filter_append]
          simp [hany]
        · rw [c2, hbugs1, List.filter_filter]
          apply List.filter_congr
          intro c hc
          cases h1 : pre₀.any (fun q => isColliding q.toEntity c.toEntity) <;>
            cases h2 : isColliding p.toEntity c.toEntity <;>
              simp [List.any_append, h1, h2]
        · rw [c3, hpu1]
        · rw [c4, hstep.2.2.2.1]
          have hcnt : pre₀.countP (fun q => (collisionStepAt s pre₀.length).bugs.any
                (fun c => isColliding q.toEntity c.toEntity))
              = pre₀.countP (fun q =>
                s.bugs.any (fun c => isColliding q.toEntity c.toEntity)) :=
            List.countP_congr (fun q hq => by rw [hanyeq q hq])
          rw [hcnt, List.countP_append]
          simp [hany, List.countP_cons]
          ring
        · intro t
          have hsplitc := countP_split s.bugs
            (fun c => ((pre₀ ++ [p]).any (fun q => isColliding q.toEntity c.toEntity))
              && decide (c.type = t))
            (fun c => isColliding p.toEntity c.toEntity)
          have hA : s.bugs.countP (fun c =>
              (((pre₀ ++ [p]).any (fun q => isColliding q.toEntity c.toEntity))
                && decide (c.type = t)) && isColliding p.toEntity c.toEntity)
              = if b.type = t then 1 else 0 := by
            have h1 : s.bugs.countP (fun c =>
                (((pre₀ ++ [p]).any (fun q => isColliding q.toEntity c.toEntity))
                  && decide (c.type = t)) && isColliding p.toEntity c.toEntity)
                = s.bugs.countP (fun c => decide (c = b) && decide (b.type = t)) := by
              apply List.countP_congr
              intro c hc
              cases hpc : isColliding p.toEntity c.toEntity with
              | false =>
                have hcb : ¬(c = b) := by
                  rintro rfl
                  rw [hbcol] at hpc
                  cases hpc
                simp [hpc, hcb]
              | true =>
                have hcb : c = b := huniq c hc hpc
                subst hcb
                have hanyb : (pre₀ ++ [p]).any
                    (fun q => isColliding q.toEntity c.toEntity) = true := by
                  simp [List.any_append, hpc]
                simp [hpc, hanyb]
            rw [h1]
            by_cases ht : b.type = t
            · simp [ht, countP_unique_of_nodup s.bugs b hbmem hnodupB]
            · simp [ht]
          have hB2 : s.bugs.countP (fun c =>
              (((pre₀ ++ [p]).any (fun q => isColliding q.toEntity c.toEntity))
                && decide (c.type = t)) && !(isColliding p.toEntity c.toEntity))
              = s.bugs.countP (fun c =>
                ((pre₀.any (fun q => isColliding q.toEntity c.toEntity))
                  && decide (c.type = t)) && !(isColliding p.toEntity c.toEntity)) := by
            apply List.countP_congr
            intro c hc
            cases hpc : isColliding p.toEntity c.toEntity <;>
              simp [List.any_append, hpc]
          rw [c5 t, hstep.2.2.2.2.1, BugStats.get_incr, hbugs1, List.countP_filter,
            hsplitc, hA, hB2]
          omega
    · have hnob : ∀ c ∈ s.bugs, isColliding p.toEntity c.toEntity = false := by
        intro c hc
        cases h : isColliding p.toEntity c.toEntity
        · rfl
        · exact absurd (List.any_eq_true.mpr ⟨c, hc, h⟩) hany
      have hanyf : s.bugs.any (fun c => isColliding p.toEntity c.toEntity) = false := by
        simpa using hany
      have hlastb : lastHit (fun c => isColliding p.toEntity c.toEntity) s.bugs = none :=
        lastHit_eq_none_of_all _ _ hnob
      have hlastu : lastHit (fun c => isColliding p.toEntity c.toEntity) s.powerUps = none :=
        lastHit_eq_none_of_all _ _ (fun u hu => hPU p hpmem u hu)
      have hstep := collisionStepAt_miss s pre₀.length p hpget hlastb hlastu
      obtain ⟨c1, c2, c3, c4, c5⟩ := ih s (p :: rest) hsplit hnodup₀ hnodupB
        (fun q hq u hu => hPU q (hmemP q hq) u hu)
        (fun q hq b1 hb1 b2 hb2 h1 h2 => hP1 q (hmemP q hq) b1 hb1 b2 hb2 h1 h2)
        (fun c hc q1 hq1 q2 hq2 h1 h2 => hB1 c hc q1 (hmemP q1 hq1) q2 (hmemP q2 hq2) h1 h2)
      rw [hauxlen, haux, hstep]
      refine ⟨?_, ?_, ?_, ?_, ?_⟩
      · rw [c1, List.filter_append]
        simp [hanyf]
      · rw [c2]
        apply List.filter_congr
        intro c hc
        simp [List.any_append, hnob c hc]
      · rw [c3]
      · rw [c4, List.countP_append]
        simp [hanyf, List.countP_cons]
      · intro t
        rw [c5 t]
        congr 1
        apply List.countP_congr
        intro c hc
        simp [List.any_append, hnob c hc]

def projC : Projectile :=
  { id := 1, x := 100, y := 100, width := 4, height := 12, size := 4, hasCollided := false }

def bugD : Bug :=
  { id := 1, x := 90, y := 95, width := 40, height := 40, size := 40,
    type := .functionalErrors }

def bugE : Bug :=
  { id := 2, x := 95, y := 100, width := 40, height := 40, size := 40,
    type := .functionalErrors }

def s2cex : GameState := { baseState with projectiles := [projC], bugs := [bugD, bugE] }

/-- C2 counterexample: the per-pair claim is not universal.  In `s2cex`
the single projectile overlaps **both** bugs; after `checkCollisions`
the projectile has destroyed only the last-indexed bug, so the
overlapping pair (`projC`, `bugD`) violates the claim — `bugD` is still
in the collection at the next tick and the total score rose by 10, not
by 10 per overlapping pair. -/
theorem collision_pair_not_universal :
    isColliding projC.toEntity bugD.toEntity = true ∧
    bugD ∈ (checkCollisions s2cex).bugs ∧
    (checkCollisions s2cex).score = s2cex.score + 10 := by
  have hbugs : (checkCollisions s2cex).bugs = [bugD] := by
    norm_num [checkCollisions, s2cex, baseState, checkCollisionsAux, collisionStepAt,
      lastHit, isColliding, projC, bugD, bugE, removeProjectile, removeBug, addScore]
  refine ⟨by norm_num [isColliding, projC, bugD], by rw [hbugs]; simp, ?_⟩
  norm_num [checkCollisions, s2cex, baseState, checkCollisionsAux, collisionStepAt,
    lastHit, isColliding, projC, bugD, bugE, removeProjectile, removeBug, addScore]

/-- C2 (amended): whenever the post-move overlaps form a one-to-one
matching — each projectile overlaps at most one bug, each bug at most
one projectile, no projectile overlaps a power-up, and the collections
are duplicate-free — collision resolution removes **every** overlapping
projectile/bug pair: the surviving projectiles are exactly those
overlapping no bug, the surviving bugs exactly those overlapping no
projectile, the power-ups are untouched, the score grows by exactly 10
per overlapping pair, and the kill counter of each bug type grows by the
number of overlapping bugs of that type.  (Without the matching
hypothesis only the first-hit pair of each projectile is resolved, see
the counterexample.) -/
theorem collisions_resolved_under_matching (s : GameState)
    (hnodupP : s.projectiles.Nodup) (hnodupB : s.bugs.Nodup)
    (hPU : ∀ q ∈ s.projectiles, ∀ u ∈ s.powerUps,
      isColliding q.toEntity u.toEntity = false)
    (hP1 : ∀ q ∈ s.projectiles, ∀ b1 ∈ s.bugs, ∀ b2 ∈ s.bugs,
      isColliding q.toEntity b1.toEntity = true →
      isColliding q.toEntity b2.toEntity = true → b1 = b2)
    (hB1 : ∀ c ∈ s.bugs, ∀ q1 ∈ s.projectiles, ∀ q2 ∈ s.projectiles,
      isColliding q1.toEntity c.toEntity = true →
      isColliding q2.toEntity c.toEntity = true → q1 = q2) :
    (checkCollisions s).projectiles
        = s.projectiles.filter
            (fun q => !(s.bugs.any (fun c => isColliding q.toEntity c.toEntity))) ∧
    (checkCollisions s).bugs
        = s.bugs.filter
            (fun c => !(s.projectiles.any (fun q => isColliding q.toEntity c.toEntity))) ∧
    (checkCollisions s).powerUps = s.powerUps ∧
    (checkCollisions s).score
        = s.score + 10 * (s.projectiles.countP
            (fun q => s.bugs.any (fun c => isColliding q.toEntity c.toEntity)) : ℤ) ∧
    (∀ t, (checkCollisions s).bugStats.get t
        = s.bugStats.get t + s.bugs.countP
            (fun c => (s.projectiles.any (fun q => isColliding q.toEntity c.toEntity))
              && decide (c.type = t))) := by
  have h := checkCollisionsAux_matching s.projectiles s []
    (by simp) hnodupP hnodupB hPU hP1 hB1
  simpa [checkCollisions] using h

def projW1 : Projectile :=
  { id := 1, x := 100, y := 100, width := 4, height := 12, size := 4, hasCollided := false }

def projW2 : Projectile :=
  { id := 2, x := 500, y := 100, width := 4, height := 12, size := 4, hasCollided := false }

def bugW1 : Bug :=
  { id := 1, x := 90, y := 95, width := 40, height := 40, size := 40,
    type := .functionalErrors }

def bugW2 : Bug :=
  { id := 2, x := 490, y := 95, width := 40, height := 40, size := 40,
    type := .securityBugs }

def puW : PowerUp :=
  { id := 1, x := 700, y := 300, width := 60, height := 60, size := 60, type := .TEST }

def s2wit : GameState :=
  { baseState with projectiles := [projW1, projW2], bugs := [bugW1, bugW2],
                   powerUps := [puW] }

theorem collisions_resolved_under_matching_witness :
    (s2wit.projectiles.Nodup ∧ s2wit.bugs.Nodup ∧
      (∀ q ∈ s2wit.projectiles, ∀ u ∈ s2wit.powerUps,
        isColliding q.toEntity u.toEntity = false) ∧
      (∀ q ∈ s2wit.projectiles, ∀ b1 ∈ s2wit.bugs, ∀ b2 ∈ s2wit.bugs,
        isColliding q.toEntity b1.toEntity = true →
        isColliding q.toEntity b2.toEntity = true → b1 = b2) ∧
      (∀ c ∈ s2wit.bugs, ∀ q1 ∈ s2wit.projectiles, ∀ q2 ∈ s2wit.projectiles,
        isColliding q1.toEntity c.toEntity = true →
        isColliding q2.toEntity c.toEntity = true → q1 = q2)) ∧
    ((checkCollisions s2wit).projectiles
        = s2wit.projectiles.filter
            (fun q => !(s2wit.bugs.any (fun c => isColliding q.toEntity c.toEntity))) ∧
      (checkCollisions s2wit).bugs
        = s2wit.bugs.filter
            (fun c => !(s2wit.projectiles.any (fun q => isColliding q.toEntity c.toEntity))) ∧
      (checkCollisions s2wit).powerUps = s2wit.powerUps ∧
      (checkCollisions s2wit).score
        = s2wit.score + 10 * (s2wit.projectiles.countP
            (fun q => s2wit.bugs.any (fun c => isColliding q.toEntity c.toEntity)) : ℤ) ∧
      (∀ t, (checkCollisions s2wit).bugStats.get t
        = s2wit.bugStats.get t + s2wit.bugs.countP
            (fun c => (s2wit.projectiles.any (fun q => isColliding q.toEntity c.toEntity))
              && decide (c.type = t)))) :=
  have hnp : s2wit.projectiles.Nodup := by
    norm_num [s2wit, baseState, projW1, projW2]
  have hnb : s2wit.bugs.Nodup := by
    norm_num [s2wit, baseState, bugW1, bugW2]
  have hpu : ∀ q ∈ s2wit.projectiles, ∀ u ∈ s2wit.powerUps,
      isColliding q.toEntity u.toEntity = false := by
    norm_num [s2wit, baseState, isColliding, projW1, projW2, puW]
  have hp1 : ∀ q ∈ s2wit.projectiles, ∀ b1 ∈ s2wit.bugs, ∀ b2 ∈ s2wit.bugs,
      isColliding q.toEntity b1.toEntity = true →
      isColliding q.toEntity b2.toEntity = true → b1 = b2 := by
    norm_num [s2wit, baseState, isColliding, projW1, projW2, bugW1, bugW2]
  have hb1 : ∀ c ∈ s2wit.bugs, ∀ q1 ∈ s2wit.projectiles, ∀ q2 ∈ s2wit.projectiles,
      isColliding q1.toEntity c.toEntity = true →
      isColliding q2.toEntity c.toEntity = true → q1 = q2 := by
    norm_num [s2wit, baseState, isColliding, projW1, projW2, bugW1, bugW2]
  ⟨⟨hnp, hnb, hpu, hp1, hb1⟩,
    collisions_resolved_under_matching s2wit hnp hnb hpu hp1 hb1⟩

/-! ### C1 -/

def puTEST : PowerUp :=
  { id := 7, x := 370, y := 300, width := 60, height := 60, size := 60, type := .TEST }

def s1cex : GameState :=
  { baseState with collectedPowerUps := [.TEST, .CSM, .SEC], score := 3000 }

/-- C1: the win check compares the **length of the collection history**
(duplicates included) with 4, not the unique-collected set.  In `s1cex`
three power-ups (TEST, CSM, SEC) have been collected and a second TEST
power-up is collected — a state the spawner permits when two TEST
power-ups are live simultaneously.  The session ends as `gameover` with
`success = true` even though QUAL was never collected, so the unique
set never reached all 4 types. -/
theorem win_check_counts_duplicates :
    (collectPowerUp puTEST s1cex).gameState = .gameover ∧
    (collectPowerUp puTEST s1cex).lastGameResult.map GameResult.success = some true ∧
    PowerUpType.QUAL ∉ (collectPowerUp puTEST s1cex).collectedPowerUps ∧
    (collectPowerUp puTEST s1cex).collectedPowerUps = [.TEST, .CSM, .SEC, .TEST] := by
  refine ⟨?_, ?_, ?_, ?_⟩ <;> decide
